import Mathlib

/-!
Shallow embedding of the analytics pipeline in `src/main.py` (repository
`AnaliticPZ3`).

A pandas `DataFrame` of orders is modelled as a `List Order` together with a
separate column list (column presence is what the validation step inspects).
A missing cell (pandas `NaN`) in a string column is modelled as `none`.
`TotalPrice` and `Discount` are modelled as rationals.

The point-biserial correlation metric (lines 79–88 of the source) relies on
floating-point `scipy` routines and is outside the embedded fragment; no claim
refers to it.
-/

/-- One row of `orders.csv`.  `Product` is `none` when the cell is missing
(pandas `NaN`); the other columns are always present in the rows the claims
quantify over. -/
structure Order where
  UserID : String
  TotalPrice : Rat
  Status : String
  Product : Option String
  Discount : Rat
deriving DecidableEq

/-- One row of `datasetNew.xlsx`.  Every column may contain `NaN`. -/
structure Car where
  make : Option String
  model : Option String
  trim : Option String
  body : Option String
deriving DecidableEq

/-- Python `astype(str)` stringification of a cell: a missing value (`NaN`)
prints as `"nan"`. -/
def pyStr : Option String → String
  | some s => s
  | none => "nan"

/-! ### Schema validation (lines 22–34 of `main.py`) -/

/-- `required_order_columns` (line 22). -/
def required_order_columns : List String :=
  ["UserID", "TotalPrice", "Status", "Product", "Discount"]

/-- `required_car_columns` (line 30). -/
def required_car_columns : List String := ["make", "body"]

/-- The information content of a schema-validation failure: the missing
columns that are reported, and the full column list of the input when the
failure message includes it (the orders branch prints it, lines 25–26; the
catalog branch does not, line 33). -/
structure SchemaError where
  missing : List String
  available : Option (List String)
deriving DecidableEq

/-- The list comprehension `[col for col in required if col not in df.columns]`
(lines 23 and 31). -/
def missingColumns (required cols : List String) : List String :=
  required.filter (fun c => c ∉ cols)

/-- Validation of the orders record-set (lines 23–27): on failure the message
carries both the missing columns and the available columns. -/
def validateOrders (cols : List String) (rows : List Order) :
    Except SchemaError (List Order) :=
  if missingColumns required_order_columns cols = [] then .ok rows
  else .error ⟨missingColumns required_order_columns cols, some cols⟩

/-- Validation of the catalog record-set (lines 31–34): on failure the message
carries only the missing columns. -/
def validateCars (cols : List String) (rows : List Car) :
    Except SchemaError (List Car) :=
  if missingColumns required_car_columns cols = [] then .ok rows
  else .error ⟨missingColumns required_car_columns cols, none⟩

/-! ### Record cleaning (line 37 of `main.py`):
`orders_df[~orders_df['Product'].str.contains(r'\d{4}-\d{2}-\d{2}', na=False)]` -/

/-- Whether the regular expression `\d{4}-\d{2}-\d{2}` matches at the head of
the character list (the pattern has fixed width ten, so regex search needs no
backtracking). -/
def dateAt : List Char → Bool
  | a :: b :: c :: d :: e :: f :: g :: h :: i :: j :: _ =>
    a.isDigit && b.isDigit && c.isDigit && d.isDigit && (e = '-') &&
    f.isDigit && g.isDigit && (h = '-') && i.isDigit && j.isDigit
  | _ => false

/-- Regex search: the pattern matches at some position of the list. -/
def containsDateList : List Char → Bool
  | [] => false
  | c :: rest => dateAt (c :: rest) || containsDateList rest

/-- Python `re.search(r'\d{4}-\d{2}-\d{2}', s)` as a Boolean: the string
contains a date-shaped substring anywhere.  (`\d` is modelled as a decimal
digit.) -/
def containsDate (s : String) : Bool := containsDateList s.data

/-- `Series.str.contains(..., na=False)` on one cell: a missing value counts
as no match. -/
def dateLike : Option String → Bool
  | none => false
  | some s => containsDate s

/-- Line 37: keep exactly the rows whose `Product` does not contain a
date-shaped substring. -/
def cleanOrders (orders : List Order) : List Order :=
  orders.filter (fun o => !dateLike o.Product)

/-! ### Status partitions (`isin` lists, lines 40 and 46) -/

/-- The counted-revenue statuses (line 40). -/
def revenueStatuses : List String := ["Paid", "Delivered"]

/-- The counted-cancellation statuses (lines 46 and 72). -/
def cancelStatuses : List String := ["Canceled_Mismatch", "Canceled_Error"]

/-- `non_canceled_orders` (line 40). -/
def non_canceled (orders : List Order) : List Order :=
  orders.filter (fun o => o.Status ∈ revenueStatuses)

/-- `canceled_orders` (line 46). -/
def canceled_orders (orders : List Order) : List Order :=
  orders.filter (fun o => o.Status ∈ cancelStatuses)

/-! ### groupby / aggregation primitives -/

/-- The group keys of `groupby('UserID')`: the distinct user ids, in first
occurrence order.  (`UserID` is modelled as always present.) -/
def groupUsers (rows : List Order) : List String :=
  (rows.map (·.UserID)).dedup

/-- The aggregated value `groupby('UserID')['TotalPrice'].sum()` for one
user. -/
def userSum (rows : List Order) (u : String) : Rat :=
  ((rows.filter (fun o => o.UserID = u)).map (·.TotalPrice)).sum

/-- The group keys of `groupby('Product')`: pandas drops `NaN` keys, so only
present product values group. -/
def groupProducts (rows : List Order) : List String :=
  (rows.filterMap (·.Product)).dedup

/-- The aggregated value `groupby('Product')['TotalPrice'].sum()` for one
product. -/
def productSum (rows : List Order) (p : String) : Rat :=
  ((rows.filter (fun o => o.Product = some p)).map (·.TotalPrice)).sum

/-- `Series.mean()`: `NaN` (modelled as `none`) on an empty series, otherwise
sum divided by length. -/
def seriesMean (xs : List Rat) : Option Rat :=
  if xs = [] then none else some (xs.sum / xs.length)

/-- `Series.median()`: `NaN` on an empty series; otherwise sort the values and
take the middle one (odd length) or the mean of the two middle ones (even
length). -/
def seriesMedian (xs : List Rat) : Option Rat :=
  if xs = [] then none
  else
    some
      (let s := xs.insertionSort (· ≤ ·)
       if xs.length % 2 = 1 then s.getD (xs.length / 2) 0
       else (s.getD (xs.length / 2 - 1) 0 + s.getD (xs.length / 2) 0) / 2)

/-! ### Metric 1: average revenue per user (lines 40–42) -/

/-- `user_revenue` (line 41): the per-user summed `TotalPrice` over
counted-revenue rows, one entry per distinct user. -/
def user_revenue (orders : List Order) : List (String × Rat) :=
  (groupUsers (non_canceled orders)).map
    (fun u => (u, userSum (non_canceled orders) u))

/-- `avg_revenue_per_user` (line 42): the mean of the grouped sums (`NaN`,
i.e. `none`, when there is no counted-revenue row). -/
def avg_revenue_per_user (orders : List Order) : Option Rat :=
  seriesMean ((user_revenue orders).map (·.2))

/-! ### Metric 2: median refund per user (lines 46–49) -/

/-- `user_returns` (line 47). -/
def user_returns (orders : List Order) : List (String × Rat) :=
  (groupUsers (canceled_orders orders)).map
    (fun u => (u, userSum (canceled_orders orders) u))

/-- `median_returns_per_user` (lines 48–49): the median of the grouped sums,
with the `pd.isna` guard replacing an undefined median by `0`. -/
def median_returns_per_user (orders : List Order) : Rat :=
  (seriesMedian ((user_returns orders).map (·.2))).getD 0

/-! ### Metric 3: top-revenue product (lines 53–56) -/

/-- `product_revenue` (line 53). -/
def product_revenue (orders : List Order) : List (String × Rat) :=
  (groupProducts (non_canceled orders)).map
    (fun p => (p, productSum (non_canceled orders) p))

/-- The failure raised on line 54 when `product_revenue` is empty
(`idxmax` on an empty series; the spec's name for this condition). -/
inductive EmptyMetricError where
  | emptySeries
deriving DecidableEq

/-- `idxmax`/`max` combined: scan the series keeping the first entry whose
value is maximal (pandas `idxmax` returns the first index attaining the
maximum; `max` returns that maximal value). -/
def idxmaxFrom (best : String × Rat) : List (String × Rat) → String × Rat
  | [] => best
  | x :: xs => idxmaxFrom (if best.2 < x.2 then x else best) xs

/-- Lines 53–56: the top product and its revenue, failing on an empty grouped
series. -/
def top_product (orders : List Order) : Except EmptyMetricError (String × Rat) :=
  match product_revenue orders with
  | [] => .error .emptySeries
  | x :: xs => .ok (idxmaxFrom x xs)

/-! ### Key reconciliation (lines 59–64) -/

/-- Line 60–62: the composite catalog key
`make.astype(str) + ' ' + model.astype(str) + ' ' + trim.astype(str)`. -/
def carKey (c : Car) : String :=
  pyStr c.make ++ " " ++ pyStr c.model ++ " " ++ pyStr c.trim

/-- A row of the merged frame right after the left-merge of line 63: the
`make` column is `none` (`NaN`) when the order matched no catalog row or the
matched catalog row has a missing `make`. -/
structure MergedOrder where
  UserID : String
  TotalPrice : Rat
  Status : String
  Product : String
  Discount : Rat
  make : Option String
deriving DecidableEq

/-- The rows the left-merge emits for one order: one row per catalog match
(in catalog order), or a single row with `make = NaN` when nothing matches. -/
def matchRows (cars : List Car) (o : Order) : List MergedOrder :=
  match cars.filter (fun c => carKey c = pyStr o.Product) with
  | [] => [⟨o.UserID, o.TotalPrice, o.Status, pyStr o.Product, o.Discount, none⟩]
  | ms => ms.map (fun c =>
      ⟨o.UserID, o.TotalPrice, o.Status, pyStr o.Product, o.Discount, c.make⟩)

/-- Line 63: `orders_df.merge(cars_df[['Product', 'make']], on='Product',
how='left')`, after line 59 stringified the order `Product` column. -/
def mergeLeft (orders : List Order) (cars : List Car) : List MergedOrder :=
  orders.flatMap (matchRows cars)

/-- A row of the joined frame after line 64 filled the missing makes. -/
structure JoinedOrder where
  UserID : String
  TotalPrice : Rat
  Status : String
  Product : String
  Discount : Rat
  make : String
deriving DecidableEq

/-- `fillna('Unknown')` on one `make` cell (line 64). -/
def fillUnknown (m : Option String) : String := m.getD "Unknown"

/-- Lines 59–64: the joined order set, `make` defaulted to `"Unknown"`. -/
def orders_with_make (orders : List Order) (cars : List Car) :
    List JoinedOrder :=
  (mergeLeft orders cars).map fun r =>
    ⟨r.UserID, r.TotalPrice, r.Status, r.Product, r.Discount, fillUnknown r.make⟩

/-! ### Metric 4: cancellation rate by brand (lines 67–74) -/

/-- The number of joined rows carrying a given `make`. -/
def makeCount (joined : List JoinedOrder) (m : String) : Nat :=
  (joined.filter (fun r => r.make = m)).length

/-- `value_counts()` (line 67): the distinct makes with their counts, sorted
by count in decreasing order (stable, so ties keep first-appearance order). -/
def value_counts (joined : List JoinedOrder) : List (String × Nat) :=
  (((joined.map (·.make)).dedup).map (fun m => (m, makeCount joined m))).insertionSort
    (fun a b => b.2 ≤ a.2)

/-- `top_makes` (line 67): the five most frequent makes. -/
def top_makes (joined : List JoinedOrder) : List String :=
  ((value_counts joined).take 5).map (·.1)

/-- `make_orders` (line 70): the joined rows of one brand. -/
def brandOrders (joined : List JoinedOrder) (m : String) : List JoinedOrder :=
  joined.filter (fun r => r.make = m)

/-- Lines 71–73: `(canceled_orders / total_orders) * 100 if total_orders > 0
else 0`. -/
def cancellation_rate (joined : List JoinedOrder) (m : String) : Rat :=
  if 0 < (brandOrders joined m).length then
    (((brandOrders joined m).filter
        (fun r => r.Status ∈ cancelStatuses)).length : Rat)
      / ((brandOrders joined m).length : Rat) * 100
  else 0

/-- `group_cancellation_rates` (lines 68–74): one rate per top make. -/
def group_cancellation_rates (joined : List JoinedOrder) :
    List (String × Rat) :=
  (top_makes joined).map (fun m => (m, cancellation_rate joined m))

/-! ### The pipeline (control flow of the script) -/

/-- The ways the embedded fragment of the script can abort: a failed schema
check (lines 24–27 and 32–34) or `idxmax` on an empty series (line 54). -/
inductive PipelineError where
  | schema : SchemaError → PipelineError
  | emptyMetric : EmptyMetricError → PipelineError
deriving DecidableEq

/-- The values the script computes and writes (lines 91–112), restricted to
the embedded fragment. -/
structure Report where
  avgRevenue : Option Rat
  medianReturns : Rat
  topProductName : String
  topProductRevenue : Rat
  cancellationRates : List (String × Rat)
deriving DecidableEq

/-- The script's control flow: validate both inputs (exiting on the first
failure), clean the orders, compute the metrics, join, compute the brand
rates.  A validation failure aborts before any cleaning or metric
computation. -/
def runPipeline (orderCols carCols : List String) (orders : List Order)
    (cars : List Car) : Except PipelineError Report :=
  match validateOrders orderCols orders with
  | .error e => .error (.schema e)
  | .ok os =>
    match validateCars carCols cars with
    | .error e => .error (.schema e)
    | .ok cs =>
      match top_product (cleanOrders os) with
      | .error e => .error (.emptyMetric e)
      | .ok tp =>
        .ok ⟨avg_revenue_per_user (cleanOrders os),
             median_returns_per_user (cleanOrders os),
             tp.1, tp.2,
             group_cancellation_rates (orders_with_make (cleanOrders os) cs)⟩

/-! ## Verification of the claims -/

attribute [local semireducible] Rat.add Rat.mul Rat.inv Rat.sub

theorem filter_carKey_length_le (cars : List Car)
    (h : (cars.map carKey).Nodup) (p : String) :
    (cars.filter (fun c => carKey c = p)).length ≤ 1 := by
  induction cars with
  | nil => simp
  | cons c cs ih =>
    rw [List.map_cons, List.nodup_cons] at h
    by_cases hk : carKey c = p
    · rw [List.filter_cons_of_pos (by simpa using hk)]
      have hnil : cs.filter (fun c => carKey c = p) = [] := by
        refine List.filter_eq_nil_iff.mpr ?_
        intro a ha hpa
        refine h.1 ?_
        have hap : carKey a = p := by simpa using hpa
        rw [List.mem_map]
        exact ⟨a, ha, by rw [hap]; exact hk.symm⟩
      rw [hnil]
      simp
    · rw [List.filter_cons_of_neg (by simpa using hk)]
      exact ih h.2

theorem matchRows_length (cars : List Car) (h : (cars.map carKey).Nodup)
    (o : Order) : (matchRows cars o).length = 1 := by
  have hle := filter_carKey_length_le cars h (pyStr o.Product)
  cases hm : cars.filter (fun c => carKey c = pyStr o.Product) with
  | nil => simp [matchRows, hm]
  | cons c cs =>
    rw [hm] at hle
    simp only [List.length_cons] at hle
    have hcs : cs = [] := by
      cases cs with
      | nil => rfl
      | cons d ds => simp at hle
    subst hcs
    simp [matchRows, hm]

theorem mergeLeft_length (orders : List Order) (cars : List Car)
    (h : (cars.map carKey).Nodup) :
    (mergeLeft orders cars).length = orders.length := by
  induction orders with
  | nil => rfl
  | cons o os ih =>
    simp only [mergeLeft, List.flatMap_cons, List.length_append,
      List.length_cons] at *
    rw [matchRows_length cars h o, ih]
    omega

def c1orders : List Order := [⟨"U1", 10, "Paid", some "A B C", 0⟩]

def c1cars : List Car :=
  [⟨some "A", some "B", some "C", some "sedan"⟩,
   ⟨some "A", some "B", some "C", some "coupe"⟩]

def c1goodCars : List Car := [⟨some "A", some "B", some "C", some "sedan"⟩]

/-- C1 counterexample: the source never deduplicates the catalog before the
left-merge (line 63), so a catalog holding two records with the same composite
`Product` key duplicates every matching order row: here one cleaned order and
a two-record catalog sharing the key `"A B C"` produce two output rows, not
one. -/
theorem C1_counterexample :
    (orders_with_make c1orders c1cars).length ≠ c1orders.length ∧
    c1cars.map carKey = ["A B C", "A B C"] := by decide

/-- C1 (amended): for every cleaned order record-set and every catalog
record-set whose composite `Product` keys (`make + " " + model + " " + trim`)
are pairwise distinct, the KeyReconciler left-join produces an output whose
row count equals the cleaned order row count exactly.  (The "even when the
catalog contains multiple records with the same composite Product key" part of
the claim fails: the code contains no deduplication step.) -/
theorem C1_join_cardinality (orders : List Order) (cars : List Car)
    (h : (cars.map carKey).Nodup) :
    (orders_with_make orders cars).length = orders.length := by
  unfold orders_with_make
  rw [List.length_map]
  exact mergeLeft_length orders cars h

/-- C1 witness: a concrete duplicate-free catalog, on which the join
preserves the single-row order set. -/
theorem C1_witness :
    (c1goodCars.map carKey).Nodup ∧
    (orders_with_make c1orders c1goodCars).length = c1orders.length :=
  ⟨by decide, C1_join_cardinality c1orders c1goodCars (by decide)⟩

/-- C2 counterexample: a catalog record-set missing the `make` column fails
validation, but the failure (line 33 of the source) reports only the missing
columns — its message does not include the set of columns actually present,
contrary to the claim that every validation failure names both. -/
theorem C2_counterexample :
    validateCars ["body"] ([] : List Car) = .error ⟨["make"], none⟩ ∧
    (⟨["make"], none⟩ : SchemaError).available ≠ some ["body"] :=
  ⟨rfl, by decide⟩

/-- C2 (amended): for every input record-set of each source, validation
either returns the record-set unchanged (when every required field is
present) or fails with a `SchemaError` naming the missing fields; the orders
failure additionally names the full set of fields actually present, while the
catalog failure names only the missing fields.  No downstream processing
occurs after a validation failure. -/
theorem C2_validation (ocols ccols : List String) (orders : List Order)
    (cars : List Car) :
    (missingColumns required_order_columns ocols = [] →
       validateOrders ocols orders = .ok orders) ∧
    (missingColumns required_order_columns ocols ≠ [] →
       validateOrders ocols orders =
         .error ⟨missingColumns required_order_columns ocols, some ocols⟩) ∧
    (missingColumns required_car_columns ccols = [] →
       validateCars ccols cars = .ok cars) ∧
    (missingColumns required_car_columns ccols ≠ [] →
       validateCars ccols cars =
         .error ⟨missingColumns required_car_columns ccols, none⟩) ∧
    (∀ e, validateOrders ocols orders = .error e →
       runPipeline ocols ccols orders cars = .error (.schema e)) ∧
    (∀ e, validateOrders ocols orders = .ok orders →
       validateCars ccols cars = .error e →
       runPipeline ocols ccols orders cars = .error (.schema e)) := by
  refine ⟨fun h => by simp [validateOrders, h],
          fun h => by simp [validateOrders, h],
          fun h => by simp [validateCars, h],
          fun h => by simp [validateCars, h],
          fun e he => by simp [runPipeline, he],
          fun e hok he => by simp [runPipeline, hok, he]⟩

/-- C2 witness: concrete failing and passing validations routed through the
pipeline. -/
theorem C2_witness :
    runPipeline ["UserID"] ["make", "body"] ([] : List Order)
        ([] : List Car) =
      .error (.schema ⟨["TotalPrice", "Status", "Product", "Discount"],
        some ["UserID"]⟩) :=
  (C2_validation ["UserID"] ["make", "body"] [] []).2.2.2.2.1 _ rfl

/-- C4: for every order record-set, the RecordCleaner output contains no row
whose `Product` matches (contains) the date-shaped pattern, and the output
row count is at most the input row count. -/
theorem C4_cleaner (orders : List Order) :
    (∀ o ∈ cleanOrders orders, dateLike o.Product = false) ∧
    (cleanOrders orders).length ≤ orders.length := by
  constructor
  · intro o ho
    have h := (List.mem_filter.mp ho).2
    simpa using h
  · exact List.length_filter_le _ _

def c4orders : List Order :=
  [⟨"U1", 1, "Paid", some "2020-01-02", 0⟩,
   ⟨"U2", 2, "Paid", some "SKU-7", 0⟩]

/-- C4 witness: on a concrete order set the surviving row is date-free and
the row count shrank. -/
theorem C4_witness :
    dateLike (some "SKU-7") = false ∧
    (cleanOrders c4orders).length ≤ c4orders.length :=
  ⟨(C4_cleaner c4orders).1 ⟨"U2", 2, "Paid", some "SKU-7", 0⟩ (by decide),
   (C4_cleaner c4orders).2⟩

/-- Specification-side contrast for C10: the `Product` field is, in its
entirety, exactly one date-shaped string. -/
def isExactDate (s : String) : Bool := dateAt s.data && (s.length == 10)

/-- C10: the RecordCleaner keeps a row exactly when its `Product` value,
when present, contains no date-shaped substring; a row with a missing
(`NaN`) `Product` is always kept; and the trigger is a substring match, not
a whole-field match — a string that merely contains a date, without being
one, still counts. -/
theorem C10_clean_semantics (orders : List Order) :
    (∀ o ∈ orders, o ∈ cleanOrders orders ↔
       ∀ s, o.Product = some s → containsDate s = false) ∧
    (∀ o ∈ orders, o.Product = none → o ∈ cleanOrders orders) ∧
    (containsDate "ID 2024-05-06 x" = true ∧
     isExactDate "ID 2024-05-06 x" = false) := by
  refine ⟨?_, ?_, by decide⟩
  · intro o ho
    rw [cleanOrders, List.mem_filter]
    cases hp : o.Product with
    | none => simp [ho, dateLike, hp]
    | some s => simp [ho, dateLike, hp]
  · intro o ho hp
    rw [cleanOrders, List.mem_filter]
    simp [ho, dateLike, hp]

def c10row : Order := ⟨"U3", 1, "Paid", none, 0⟩

/-- C10 witness: a concrete row with a missing `Product` survives
cleaning. -/
theorem C10_witness : c10row ∈ cleanOrders [c10row] :=
  (C10_clean_semantics [c10row]).2.1 c10row (by decide) rfl

theorem idxmaxFrom_le (l : List (String × Rat)) : ∀ b : String × Rat,
    (b.2 ≤ (idxmaxFrom b l).2 ∧ ∀ q ∈ l, q.2 ≤ (idxmaxFrom b l).2) ∧
    ((idxmaxFrom b l).2 = b.2 ∨ (idxmaxFrom b l).2 ∈ l.map (·.2)) := by
  induction l with
  | nil => intro b; simp [idxmaxFrom]
  | cons x xs ih =>
    intro b
    simp only [idxmaxFrom]
    by_cases hx : b.2 < x.2
    · rw [if_pos hx]
      obtain ⟨⟨h1, h2⟩, h3⟩ := ih x
      refine ⟨⟨le_trans (le_of_lt hx) h1, ?_⟩, ?_⟩
      · intro q hq
        rcases List.mem_cons.mp hq with h | h
        · rw [h]; exact h1
        · exact h2 q h
      · right
        rw [List.map_cons]
        rcases h3 with h | h
        · rw [h]; exact List.mem_cons_self _ _
        · exact List.mem_cons_of_mem _ h
    · rw [if_neg hx]
      obtain ⟨⟨h1, h2⟩, h3⟩ := ih b
      refine ⟨⟨h1, ?_⟩, ?_⟩
      · intro q hq
        rcases List.mem_cons.mp hq with h | h
        · rw [h]; exact le_trans (le_of_not_lt hx) h1
        · exact h2 q h
      · rcases h3 with h | h
        · exact Or.inl h
        · exact Or.inr (by rw [List.map_cons]; exact List.mem_cons_of_mem _ h)

def c3orders : List Order := [⟨"U1", 100, "Paid", none, 0⟩]

/-- C3 counterexample: an input whose single row is counted-revenue
(`Status = "Paid"`) but has a missing (`NaN`) `Product`.  The claim promises a
returned maximal revenue for every input with at least one counted-revenue
row, yet `groupby('Product')` drops the `NaN` key, the grouped series is
empty, and `idxmax` (line 54) fails. -/
theorem C3_counterexample :
    (non_canceled c3orders).length = 1 ∧
    top_product c3orders = .error .emptySeries :=
  ⟨by decide, rfl⟩

/-- C3 (amended): TopRevenueProduct fails with `EmptyMetricError` exactly
when no counted-revenue row has a present (non-`NaN`) `Product` — in
particular on every input with zero counted-revenue rows; whenever it
returns, the returned revenue equals the maximum over products of the
per-product summed `TotalPrice` (it is one of the per-product sums and no
per-product sum exceeds it). -/
theorem C3_top_product (orders : List Order) :
    (top_product orders = .error .emptySeries ↔
       groupProducts (non_canceled orders) = []) ∧
    (∀ p r, top_product orders = .ok (p, r) →
       r ∈ (product_revenue orders).map (·.2) ∧
       ∀ q ∈ product_revenue orders, q.2 ≤ r) := by
  have hmapnil : product_revenue orders = [] ↔
      groupProducts (non_canceled orders) = [] := by
    simp [product_revenue]
  constructor
  · cases hpr : product_revenue orders with
    | nil =>
      constructor
      · intro _
        exact hmapnil.mp hpr
      · intro _
        simp [top_product, hpr]
    | cons x xs =>
      constructor
      · intro h
        simp [top_product, hpr] at h
      · intro h
        rw [← hmapnil] at h
        rw [h] at hpr
        cases hpr
  · intro p r h
    cases hpr : product_revenue orders with
    | nil => simp [top_product, hpr] at h
    | cons x xs =>
      simp only [top_product, hpr, Except.ok.injEq] at h
      obtain ⟨⟨h1, h2⟩, h3⟩ := idxmaxFrom_le xs x
      have hr : (idxmaxFrom x xs).2 = r := congrArg Prod.snd h
      rw [← hr]
      constructor
      · rw [List.map_cons]
        rcases h3 with hh | hh
        · rw [hh]; exact List.mem_cons_self _ _
        · exact List.mem_cons_of_mem _ hh
      · intro q hq
        rcases List.mem_cons.mp hq with hh | hh
        · rw [hh]; exact h1
        · exact h2 q hh

def c3wOrders : List Order :=
  [⟨"U1", 100, "Paid", some "X", 0⟩, ⟨"U2", 40, "Delivered", some "Y", 0⟩]

/-- C3 witness: on a concrete two-product input the returned revenue is one
of the per-product sums and bounds them all. -/
theorem C3_witness :
    (100 : Rat) ∈ (product_revenue c3wOrders).map (·.2) ∧
    ∀ q ∈ product_revenue c3wOrders, q.2 ≤ 100 :=
  (C3_top_product c3wOrders).2 "X" 100 rfl

/-- C5: every row of the joined output carries a `make` that is either the
`make` of some catalog record or exactly the string `"Unknown"`; and a row
whose (stringified) `Product` key equals no catalog composite key always
carries `make = "Unknown"`. -/
theorem C5_join_make (orders : List Order) (cars : List Car) :
    ∀ row ∈ orders_with_make orders cars,
      ((∃ c ∈ cars, c.make = some row.make) ∨ row.make = "Unknown") ∧
      ((∀ c ∈ cars, carKey c ≠ row.Product) → row.make = "Unknown") := by
  intro row hrow
  simp only [orders_with_make, List.mem_map] at hrow
  obtain ⟨r, hr, hrow⟩ := hrow
  subst hrow
  simp only [mergeLeft, List.mem_flatMap] at hr
  obtain ⟨o, ho, hro⟩ := hr
  cases hfil : cars.filter (fun c => carKey c = pyStr o.Product) with
  | nil =>
    simp only [matchRows, hfil, List.mem_singleton] at hro
    subst hro
    exact ⟨Or.inr rfl, fun _ => rfl⟩
  | cons c cs =>
    simp only [matchRows, hfil, List.mem_map] at hro
    obtain ⟨c', hc', hrc⟩ := hro
    have hc'f : c' ∈ cars.filter (fun c => carKey c = pyStr o.Product) := by
      rw [hfil]; exact hc'
    have hc'cars := (List.mem_filter.mp hc'f).1
    have hkey : carKey c' = pyStr o.Product := by
      have := (List.mem_filter.mp hc'f).2
      simpa using this
    subst hrc
    constructor
    · cases hmk : c'.make with
      | none => exact Or.inr rfl
      | some s => exact Or.inl ⟨c', hc'cars, by rw [hmk]; rfl⟩
    · intro hall
      exact absurd hkey (hall c' hc'cars)

def c5orders : List Order := [⟨"U1", 5, "Paid", some "Toyota Corolla LE", 0⟩]

def c5cars : List Car :=
  [⟨some "Toyota", some "Corolla", some "LE", some "sedan"⟩]

def c5row : JoinedOrder := ⟨"U1", 5, "Paid", "Toyota Corolla LE", 0, "Toyota"⟩

/-- C5 witness: the spec's end-to-end example — an order with
`Product = "Toyota Corolla LE"` joins to the catalog record and receives its
`make`. -/
theorem C5_witness :
    (∃ c ∈ c5cars, c.make = some c5row.make) ∨ c5row.make = "Unknown" :=
  (C5_join_make c5orders c5cars c5row (by decide)).1

/-- The set of users having at least one counted-revenue order. -/
def specUserSet (orders : List Order) : Finset String :=
  ((non_canceled orders).map (·.UserID)).toFinset

/-- Specification-side reading of AverageRevenuePerUser: the arithmetic mean,
over the set of users having at least one counted-revenue order, of the
per-user summed `TotalPrice` over such orders. -/
def specAvgRevenue (orders : List Order) : Rat :=
  (∑ u in specUserSet orders, userSum (non_canceled orders) u) /
    (specUserSet orders).card

/-- C6: AverageRevenuePerUser is `none` (`NaN`, reported as undefined) when
the input has no counted-revenue row; otherwise it equals the arithmetic
mean, over all users having at least one counted-revenue order, of that
user's summed `TotalPrice` over such orders. -/
theorem C6_avg_revenue (orders : List Order) :
    (non_canceled orders = [] → avg_revenue_per_user orders = none) ∧
    (non_canceled orders ≠ [] →
       avg_revenue_per_user orders = some (specAvgRevenue orders)) := by
  constructor
  · intro h
    simp [avg_revenue_per_user, user_revenue, groupUsers, h, seriesMean]
  · intro h
    have hxs : (user_revenue orders).map (·.2) =
        (((non_canceled orders).map (·.UserID)).dedup).map
          (userSum (non_canceled orders)) := by
      simp only [user_revenue, groupUsers, List.map_map]
      rfl
    have hne : (((non_canceled orders).map (·.UserID)).dedup).map
        (userSum (non_canceled orders)) ≠ [] := by
      simp [List.dedup_eq_nil, h]
    unfold avg_revenue_per_user
    rw [hxs]
    unfold seriesMean
    rw [if_neg hne]
    have h1 : ∑ u in specUserSet orders, userSum (non_canceled orders) u =
        ((((non_canceled orders).map (·.UserID)).dedup).map
          (userSum (non_canceled orders))).sum := by
      have htf : (((non_canceled orders).map (·.UserID)).dedup).toFinset =
          ((non_canceled orders).map (·.UserID)).toFinset :=
        List.toFinset_eq_iff_perm_dedup.mpr (by rw [List.dedup_idem])
      rw [specUserSet, ← htf]
      exact List.sum_toFinset _ (List.nodup_dedup _)
    have h2 : (specUserSet orders).card =
        (((non_canceled orders).map (·.UserID)).dedup).length := by
      rw [specUserSet, List.card_toFinset]
    rw [specAvgRevenue, h1, h2, List.length_map]

def c6orders : List Order :=
  [⟨"U1", 100, "Paid", some "A", 0⟩, ⟨"U1", 50, "Canceled_Error", some "A", 0⟩,
   ⟨"U2", 200, "Delivered", some "B", 0⟩]

/-- C6 witness: the spec's end-to-end example — users U1 and U2 have counted
revenues 100 and 200, and the metric is their mean, 150. -/
theorem C6_witness :
    avg_revenue_per_user c6orders = some (specAvgRevenue c6orders) ∧
    avg_revenue_per_user c6orders = some 150 :=
  ⟨(C6_avg_revenue c6orders).2 (by decide), by decide⟩

/-- C7: MedianRefundPerUser returns exactly 0 when no row has a
counted-cancellation status; otherwise the median (across users with at least
one such row) of the per-user summed `TotalPrice` is defined and is exactly
the value returned. -/
theorem C7_median_returns (orders : List Order) :
    (canceled_orders orders = [] → median_returns_per_user orders = 0) ∧
    (canceled_orders orders ≠ [] →
       seriesMedian ((user_returns orders).map (·.2)) =
         some (median_returns_per_user orders)) := by
  constructor
  · intro h
    simp [median_returns_per_user, user_returns, groupUsers, h, seriesMedian]
  · intro h
    have hne : (user_returns orders).map (·.2) ≠ [] := by
      simp [user_returns, groupUsers, List.dedup_eq_nil, h]
    unfold median_returns_per_user
    cases hm : seriesMedian ((user_returns orders).map (·.2)) with
    | none =>
      exfalso
      unfold seriesMedian at hm
      rw [if_neg hne] at hm
      simp at hm
    | some m => rfl

def c7aOrders : List Order := [⟨"U1", 100, "Paid", some "A", 0⟩]

def c7bOrders : List Order :=
  [⟨"U1", 100, "Paid", some "A", 0⟩, ⟨"U1", 50, "Canceled_Error", some "A", 0⟩]

/-- C7 witness: with no counted-cancellation row the metric is exactly 0; on
the spec's example the median of the single per-user refund sum 50 is
defined and the metric returns 50. -/
theorem C7_witness :
    median_returns_per_user c7aOrders = 0 ∧
    seriesMedian ((user_returns c7bOrders).map (·.2)) =
      some (median_returns_per_user c7bOrders) ∧
    median_returns_per_user c7bOrders = 50 :=
  ⟨(C7_median_returns c7aOrders).1 rfl,
   (C7_median_returns c7bOrders).2 (by decide),
   by decide⟩

/-- C8: for each make in the reported top-5 list, the reported rate lies in
[0, 100]; the division is guarded so a brand with zero orders yields 0
instead of a division error; and for a brand with orders the rate is
`100 × (count of counted-cancellation orders) / (total orders of the
brand)`. -/
theorem C8_cancellation_rates (joined : List JoinedOrder) :
    (∀ mr ∈ group_cancellation_rates joined, 0 ≤ mr.2 ∧ mr.2 ≤ 100) ∧
    (∀ m : String, brandOrders joined m = [] →
       cancellation_rate joined m = 0) ∧
    (∀ m : String, 0 < (brandOrders joined m).length →
       cancellation_rate joined m =
         100 * (((brandOrders joined m).filter
             (fun r => r.Status ∈ cancelStatuses)).length : Rat) /
           ((brandOrders joined m).length : Rat)) := by
  have hrate : ∀ m : String,
      0 ≤ cancellation_rate joined m ∧ cancellation_rate joined m ≤ 100 := by
    intro m
    unfold cancellation_rate
    by_cases hlen : 0 < (brandOrders joined m).length
    · rw [if_pos hlen]
      have hc : (((brandOrders joined m).filter
            (fun r => r.Status ∈ cancelStatuses)).length : Rat) ≤
          ((brandOrders joined m).length : Rat) := by
        exact_mod_cast List.length_filter_le _ _
      have hpos : (0 : Rat) < ((brandOrders joined m).length : Rat) := by
        exact_mod_cast hlen
      constructor
      · positivity
      · have hdiv : (((brandOrders joined m).filter
              (fun r => r.Status ∈ cancelStatuses)).length : Rat) /
            ((brandOrders joined m).length : Rat) ≤ 1 :=
          (div_le_one hpos).mpr hc
        calc (((brandOrders joined m).filter
              (fun r => r.Status ∈ cancelStatuses)).length : Rat) /
            ((brandOrders joined m).length : Rat) * 100
            ≤ 1 * 100 := mul_le_mul_of_nonneg_right hdiv (by norm_num)
          _ = 100 := one_mul _
    · rw [if_neg hlen]
      norm_num
  refine ⟨?_, ?_, ?_⟩
  · intro mr hmr
    simp only [group_cancellation_rates, List.mem_map] at hmr
    obtain ⟨m, hm, hmr⟩ := hmr
    rw [← hmr]
    exact hrate m
  · intro m hm
    unfold cancellation_rate
    rw [hm]
    simp
  · intro m hlen
    unfold cancellation_rate
    rw [if_pos hlen]
    ring

def c8joined : List JoinedOrder :=
  [⟨"U1", 10, "Canceled_Error", "P", 0, "Toyota"⟩,
   ⟨"U2", 10, "Paid", "P", 0, "Toyota"⟩]

/-- C8 witness: on a concrete joined set the reported rate for the ranked
brand Toyota (one cancellation out of two orders, 50) lies in [0, 100], and a
brand with no orders gets the guarded rate 0. -/
theorem C8_witness :
    (0 ≤ (("Toyota", (50 : Rat)) : String × Rat).2 ∧
      (("Toyota", (50 : Rat)) : String × Rat).2 ≤ 100) ∧
    cancellation_rate c8joined "BMW" = 0 :=
  ⟨(C8_cancellation_rates c8joined).1 ("Toyota", 50) (by decide),
   (C8_cancellation_rates c8joined).2.1 "BMW" (by decide)⟩

theorem seriesMean_congr {xs ys : List Rat} (hs : xs.sum = ys.sum)
    (hl : xs.length = ys.length) : seriesMean xs = seriesMean ys := by
  unfold seriesMean
  by_cases hx : xs = []
  · have hy : ys = [] := by
      rw [← List.length_eq_zero, ← hl, hx]
      rfl
    rw [if_pos hx, if_pos hy]
  · have hy : ys ≠ [] := by
      intro hy
      apply hx
      rw [← List.length_eq_zero, hl, hy]
      rfl
    rw [if_neg hx, if_neg hy, hs, hl]

/-- C9: AverageRevenuePerUser computed on any permutation of the input rows
equals AverageRevenuePerUser computed on the original input. -/
theorem C9_perm_invariant (l1 l2 : List Order) (h : l1.Perm l2) :
    avg_revenue_per_user l1 = avg_revenue_per_user l2 := by
  have hf : (non_canceled l1).Perm (non_canceled l2) := h.filter _
  have hsum : userSum (non_canceled l1) = userSum (non_canceled l2) := by
    funext u
    exact List.Perm.sum_eq ((hf.filter _).map _)
  have hud : (((non_canceled l1).map (·.UserID)).dedup).Perm
      (((non_canceled l2).map (·.UserID)).dedup) := (hf.map _).dedup
  have hxs1 : (user_revenue l1).map (·.2) =
      (((non_canceled l1).map (·.UserID)).dedup).map
        (userSum (non_canceled l1)) := by
    simp only [user_revenue, groupUsers, List.map_map]
    rfl
  have hxs2 : (user_revenue l2).map (·.2) =
      (((non_canceled l2).map (·.UserID)).dedup).map
        (userSum (non_canceled l2)) := by
    simp only [user_revenue, groupUsers, List.map_map]
    rfl
  unfold avg_revenue_per_user
  rw [hxs1, hxs2]
  apply seriesMean_congr
  · rw [hsum]
    exact List.Perm.sum_eq (hud.map _)
  · rw [List.length_map, List.length_map]
    exact hud.length_eq

def c9a : List Order :=
  [⟨"U1", 100, "Paid", some "A", 0⟩, ⟨"U2", 200, "Delivered", some "B", 0⟩]

def c9b : List Order :=
  [⟨"U2", 200, "Delivered", some "B", 0⟩, ⟨"U1", 100, "Paid", some "A", 0⟩]

/-- C9 witness: swapping the two rows of a concrete order set leaves the
metric unchanged. -/
theorem C9_witness : avg_revenue_per_user c9a = avg_revenue_per_user c9b :=
  C9_perm_invariant c9a c9b (by decide)
